import Mathlib

/-!
Shallow embedding of the game-progression core of `src/src/App.tsx`
(a single-screen color-sensitivity reaction game).

The React component keeps seven pieces of state (`gameState`, `score`,
`timeLeft`, `gridSize`, `colors`, `targetIndex`, `bestScore`); we group the
round data (`gridSize`, `colors`/`tiles`, `targetIndex`) into a `Round`
structure and the rest into `Session`.  The calls to `Math.random()` are made
explicit: a `Rand` record carries the integer draws the source derives from
them (`Math.floor(Math.random() * 360)` becomes a field `hr` constrained by
`hr < 360` where a theorem needs it, and so on).  Colors are kept as their
HSL components rather than the formatted `hsl(...)` string: the formatting is
injective on the integer components, so equality of tiles is unchanged.
-/

namespace ColorSophia

/-- Mirrors `type GameState = 'START' | 'PLAYING' | 'GAMEOVER'`. -/
inductive GameState
  | START
  | PLAYING
  | GAMEOVER
deriving DecidableEq

/-- An HSL color, the components of the `hsl(h, s%, l%)` strings the source
builds (the formatting is injective, so structural equality matches string
equality of tiles). -/
structure Color where
  h : Int
  s : Int
  l : Int
deriving DecidableEq

/-- One round of the puzzle: the source's `gridSize`, `colors` and
`targetIndex` state variables, grouped.  `targetIndex` is an `Int` because the
source initializes it to `-1` before any round exists. -/
structure Round where
  gridSize : Nat
  tiles : List Color
  targetIndex : Int
deriving DecidableEq

/-- The session state of the component. -/
structure Session where
  gameState : GameState
  score : Nat
  timeLeft : Int
  round : Round
  bestScore : Nat
deriving DecidableEq

/-- The integer draws the source takes from `Math.random()` during one round
build: `hr = Math.floor(Math.random()*360)`, `sr`, `lr` the two
`Math.floor(Math.random()*40)` draws, `flipL` the outcome of
`Math.random() > 0.5` (true picks the lightness channel), and `tr` the draw
`Math.floor(Math.random()*totalBlocks)` for the target position. -/
structure Rand where
  hr : Nat
  sr : Nat
  lr : Nat
  flipL : Bool
  tr : Nat
deriving DecidableEq

def INITIAL_TIME : Int := 15
def TIME_BONUS : Int := 2
def MIN_GRID_SIZE : Nat := 2
def MAX_GRID_SIZE : Nat := 8

/-- The difficulty knob computed inside `generateColor`:
`const delta = Math.max(1, 15 - Math.floor(currentScore / 3))`. -/
def delta (currentScore : Nat) : Int :=
  max 1 (15 - ((currentScore / 3 : Nat) : Int))

/-- `generateColor(currentScore)` of the source, with the random draws made
explicit.  Returns `(baseColor, targetColor)`. -/
def generateColor (currentScore : Nat) (r : Rand) : Color × Color :=
  let h : Int := r.hr
  let s : Int := r.sr + 40
  let l : Int := r.lr + 30
  let d := delta currentScore
  let diffL : Int := if r.flipL then (if l > 50 then -d else d) else 0
  let diffS : Int := if r.flipL then 0 else (if s > 50 then -d else d)
  (⟨h, s, l⟩, ⟨h, s + diffS, l + diffL⟩)

/-- The grid-size progression computed at the top of `nextLevel`: a chain of
reassignments `let newGridSize = MIN_GRID_SIZE; if (score >= 2) ... = 3;` etc.,
the last satisfied threshold winning. -/
def gridSizeFor (currentScore : Nat) : Nat :=
  let g0 := MIN_GRID_SIZE
  let g1 := if currentScore ≥ 2 then 3 else g0
  let g2 := if currentScore ≥ 6 then 4 else g1
  let g3 := if currentScore ≥ 12 then 5 else g2
  let g4 := if currentScore ≥ 20 then 6 else g3
  let g5 := if currentScore ≥ 30 then 7 else g4
  if currentScore ≥ 45 then 8 else g5

/-- The spec's description of the same progression, written as the spec words
it: "score≥45→8, ≥30→7, ≥20→6, ≥12→5, ≥6→4, ≥2→3, else 2" (thresholds are
inclusive lower bounds, highest matching threshold wins).  Kept separate from
`gridSizeFor` so the two can be compared. -/
def gridSizeSpec (s : Nat) : Nat :=
  if s ≥ 45 then 8
  else if s ≥ 30 then 7
  else if s ≥ 20 then 6
  else if s ≥ 12 then 5
  else if s ≥ 6 then 4
  else if s ≥ 2 then 3
  else 2

/-- `nextLevel(currentScore)` of the source: computes the grid size, draws the
colors, fills `totalBlocks` copies of the base color and overwrites position
`newTargetIndex` with the target color. -/
def nextLevel (currentScore : Nat) (r : Rand) : Round :=
  let newGridSize := gridSizeFor currentScore
  let bt := generateColor currentScore r
  let totalBlocks := newGridSize * newGridSize
  let newTargetIndex := r.tr
  let newColors := (List.replicate totalBlocks bt.1).set newTargetIndex bt.2
  ⟨newGridSize, newColors, (newTargetIndex : Int)⟩

/-- `startGame` of the source: reset score and clock, enter `PLAYING`, build
the round for score 0.  `bestScore` is untouched. -/
def startGame (s : Session) (r : Rand) : Session :=
  { s with score := 0, timeLeft := INITIAL_TIME,
           gameState := GameState.PLAYING, round := nextLevel 0 r }

/-- `handleBlockClick(index)` of the source.  `r` is the randomness consumed
by the `nextLevel` call in the correct-guess branch (unused otherwise, as in
the source). -/
def handleBlockClick (s : Session) (index : Int) (r : Rand) : Session :=
  if s.gameState ≠ GameState.PLAYING then s
  else if index = s.round.targetIndex then
    let newScore := s.score + 1
    { s with score := newScore,
             timeLeft := min (s.timeLeft + TIME_BONUS) 30,
             round := nextLevel newScore r }
  else
    { s with timeLeft := max 0 (s.timeLeft - 3) }

/-- The `useEffect` on `[gameState, score, bestScore]`: if the game is over
and the score beats the best, record it. -/
def bestScoreEffect (s : Session) : Session :=
  if s.gameState = GameState.GAMEOVER ∧ s.score > s.bestScore then
    { s with bestScore := s.score }
  else s

/-- One firing of the `setInterval` callback (the countdown tick).  The
interval only exists while `gameState === 'PLAYING'`, hence the guard; the
callback itself returns `0` and flips the phase to `GAMEOVER` when
`prev <= 1`, else decrements. -/
def tick (s : Session) : Session :=
  if s.gameState ≠ GameState.PLAYING then s
  else if s.timeLeft ≤ 1 then
    { s with gameState := GameState.GAMEOVER, timeLeft := 0 }
  else
    { s with timeLeft := s.timeLeft - 1 }

/-- The events the component reacts to. -/
inductive Event
  | start (r : Rand)
  | guess (index : Int) (r : Rand)
  | tickEv
deriving DecidableEq

/-- One event-processing step of the component: the event handler followed by
the `bestScore` effect, which React runs after every state change. -/
def step (s : Session) (e : Event) : Session :=
  match e with
  | Event.start r => bestScoreEffect (startGame s r)
  | Event.guess i r => bestScoreEffect (handleBlockClick s i r)
  | Event.tickEv => bestScoreEffect (tick s)

/-- Run a list of events from a state. -/
def run (s : Session) (es : List Event) : Session :=
  es.foldl step s

/-- The component's initial state: `'START'`, score 0, `INITIAL_TIME`,
grid size `MIN_GRID_SIZE`, no tiles, `targetIndex = -1`, best score 0. -/
def initSession : Session :=
  ⟨GameState.START, 0, INITIAL_TIME, ⟨MIN_GRID_SIZE, [], -1⟩, 0⟩

/-- A fixed bundle of random draws used by concrete witnesses. -/
def r0 : Rand := ⟨0, 0, 0, false, 0⟩

/-- A concrete `PLAYING` session: the state right after `startGame` from the
initial state with draws `r0`. -/
def exS : Session := startGame initSession r0

/-! ### Helper lemmas -/

/-- The grid-size chain of the source equals the spec's step function. -/
theorem gridSizeFor_eq_spec (s : Nat) : gridSizeFor s = gridSizeSpec s := by
  simp only [gridSizeFor, gridSizeSpec, MIN_GRID_SIZE]

/-- The grid-size progression is monotone. -/
theorem gridSizeFor_mono {s1 s2 : Nat} (h : s1 ≤ s2) :
    gridSizeFor s1 ≤ gridSizeFor s2 := by
  rw [gridSizeFor_eq_spec, gridSizeFor_eq_spec]
  simp only [gridSizeSpec]
  split_ifs <;> omega

/-- The grid size stays within `[MIN_GRID_SIZE, MAX_GRID_SIZE]`. -/
theorem gridSizeFor_bounds (s : Nat) :
    MIN_GRID_SIZE ≤ gridSizeFor s ∧ gridSizeFor s ≤ MAX_GRID_SIZE := by
  rw [gridSizeFor_eq_spec]
  simp only [gridSizeSpec, MIN_GRID_SIZE, MAX_GRID_SIZE]
  split_ifs <;> omega

/-- The difficulty gap is at least one percentage point. -/
theorem one_le_delta (s : Nat) : 1 ≤ delta s := le_max_left 1 _

/-- The difficulty gap is at most 15 percentage points. -/
theorem delta_le_fifteen (s : Nat) : delta s ≤ 15 := by
  unfold delta
  have h : ((s / 3 : Nat) : Int) ≥ 0 := Int.natCast_nonneg _
  omega

/-- The difficulty gap never grows with the score. -/
theorem delta_antitone {s1 s2 : Nat} (h : s1 ≤ s2) : delta s2 ≤ delta s1 := by
  unfold delta
  have hdiv : s1 / 3 ≤ s2 / 3 := Nat.div_le_div_right h
  have hdiv2 : ((s1 / 3 : Nat) : Int) ≤ ((s2 / 3 : Nat) : Int) := by
    exact_mod_cast hdiv
  omega

/-- The target and base colors of a generated pair always differ: exactly one
channel moves by `delta`, and `delta ≥ 1`. -/
theorem generateColor_snd_ne_fst (score : Nat) (r : Rand) :
    (generateColor score r).2 ≠ (generateColor score r).1 := by
  have hd := one_le_delta score
  simp only [generateColor, ne_eq, Color.mk.injEq]
  split_ifs <;> simp <;> omega

/-- The tile list built by `nextLevel` has `gridSize * gridSize` entries. -/
theorem nextLevel_tiles_length (score : Nat) (r : Rand) :
    (nextLevel score r).tiles.length = gridSizeFor score * gridSizeFor score := by
  simp [nextLevel]

/-! ### Claims -/

/-- Claim C5: every round produced by the round builder has `gridSize^2`
tiles, a target index that is a valid position, the target color at the
target index, the base color at every other index, and a target color that
differs from the base color. -/
theorem round_builder_invariant (score : Nat) (r : Rand) (j : Nat)
    (htr : r.tr < gridSizeFor score * gridSizeFor score)
    (hj : j < (nextLevel score r).tiles.length) :
    (nextLevel score r).tiles.length =
        (nextLevel score r).gridSize * (nextLevel score r).gridSize ∧
    0 ≤ (nextLevel score r).targetIndex ∧
    (nextLevel score r).targetIndex <
        (((nextLevel score r).gridSize * (nextLevel score r).gridSize : Nat) : Int) ∧
    ((j : Int) = (nextLevel score r).targetIndex →
        (nextLevel score r).tiles[j] = (generateColor score r).2) ∧
    ((j : Int) ≠ (nextLevel score r).targetIndex →
        (nextLevel score r).tiles[j] = (generateColor score r).1) ∧
    (generateColor score r).2 ≠ (generateColor score r).1 := by
  refine ⟨nextLevel_tiles_length score r, ?_, ?_, ?_, ?_,
    generateColor_snd_ne_fst score r⟩
  · simp [nextLevel]
  · simp only [nextLevel]
    exact_mod_cast htr
  · intro hEq
    have hjt : j = r.tr := by
      have : (j : Int) = (r.tr : Int) := by simpa [nextLevel] using hEq
      exact_mod_cast this
    subst hjt
    simp [nextLevel, List.getElem_set_self]
  · intro hNe
    have hjt : r.tr ≠ j := by
      intro hc
      exact hNe (by simp [nextLevel, hc])
    simp [nextLevel, List.getElem_set_ne hjt, List.getElem_replicate]

/-- Claim C6: the grid dimension used by the round builder equals the spec's
step function of the score (8 at 45+, 7 at 30+, 6 at 20+, 5 at 12+, 4 at 6+,
3 at 2+, else 2), it is non-decreasing, always within `[2, 8]`, and at
score 2 the next round has dimension 3 and 9 tiles. -/
theorem grid_dimension_step_function (s1 s2 : Nat) (r : Rand) (h : s1 ≤ s2) :
    (nextLevel s1 r).gridSize = gridSizeSpec s1 ∧
    gridSizeFor s1 ≤ gridSizeFor s2 ∧
    2 ≤ gridSizeFor s1 ∧ gridSizeFor s1 ≤ 8 ∧
    gridSizeFor 2 = 3 ∧
    (nextLevel 2 r).tiles.length = 9 := by
  refine ⟨gridSizeFor_eq_spec s1, gridSizeFor_mono h,
    (gridSizeFor_bounds s1).1, (gridSizeFor_bounds s1).2, by decide, ?_⟩
  simp [nextLevel, gridSizeFor, MIN_GRID_SIZE]

/-- Claim C7: the color-distance knob used by color generation is
`delta(s) = max(1, 15 - floor(s/3))`; it is non-increasing in the score,
never less than 1, and the generated pair differs by exactly `delta` summed
over the saturation and lightness channels. -/
theorem delta_knob_spec (s1 s2 : Nat) (r : Rand) (h : s1 ≤ s2) :
    delta s1 = max 1 (15 - ((s1 / 3 : Nat) : Int)) ∧
    delta s2 ≤ delta s1 ∧
    1 ≤ delta s1 ∧
    |(generateColor s1 r).2.s - (generateColor s1 r).1.s| +
      |(generateColor s1 r).2.l - (generateColor s1 r).1.l| = delta s1 := by
  refine ⟨rfl, delta_antitone h, one_le_delta s1, ?_⟩
  have hd := one_le_delta s1
  simp only [generateColor]
  split_ifs <;>
    simp only [add_sub_cancel_left, add_zero, zero_add, sub_self, abs_zero,
      abs_neg] <;>
    rw [abs_of_nonneg (by omega)]

/-- Claim C8: the base color of a generated pair has hue in `[0, 360)`,
saturation in `[40, 80)` and lightness in `[30, 70)`; the target keeps the
hue and all but one of saturation/lightness, the modified channel moves by
exactly `delta` (subtracted when its base value exceeds 50, added
otherwise), and the modified channel stays inside `[0, 100]`. -/
theorem generated_color_pair_spec (score : Nat) (r : Rand)
    (hh : r.hr < 360) (hs : r.sr < 40) (hl : r.lr < 40) :
    0 ≤ (generateColor score r).1.h ∧ (generateColor score r).1.h < 360 ∧
    40 ≤ (generateColor score r).1.s ∧ (generateColor score r).1.s < 80 ∧
    30 ≤ (generateColor score r).1.l ∧ (generateColor score r).1.l < 70 ∧
    (generateColor score r).2.h = (generateColor score r).1.h ∧
    (((generateColor score r).2.s = (generateColor score r).1.s ∧
      (generateColor score r).2.l ≠ (generateColor score r).1.l) ∨
     ((generateColor score r).2.l = (generateColor score r).1.l ∧
      (generateColor score r).2.s ≠ (generateColor score r).1.s)) ∧
    ((generateColor score r).2.s ≠ (generateColor score r).1.s →
       (generateColor score r).2.s = (generateColor score r).1.s +
         (if (generateColor score r).1.s > 50 then -(delta score)
          else delta score)) ∧
    ((generateColor score r).2.l ≠ (generateColor score r).1.l →
       (generateColor score r).2.l = (generateColor score r).1.l +
         (if (generateColor score r).1.l > 50 then -(delta score)
          else delta score)) ∧
    0 ≤ (generateColor score r).2.s ∧ (generateColor score r).2.s ≤ 100 ∧
    0 ≤ (generateColor score r).2.l ∧ (generateColor score r).2.l ≤ 100 := by
  have hd1 := one_le_delta score
  have hd15 := delta_le_fifteen score
  simp only [generateColor]
  split_ifs <;> simp_all <;> omega

/-- A guess never changes the phase, whatever the state. -/
theorem handleBlockClick_gameState (s : Session) (i : Int) (r : Rand) :
    (handleBlockClick s i r).gameState = s.gameState := by
  unfold handleBlockClick
  split_ifs <;> rfl

/-- A guess never touches the best score. -/
theorem handleBlockClick_bestScore (s : Session) (i : Int) (r : Rand) :
    (handleBlockClick s i r).bestScore = s.bestScore := by
  unfold handleBlockClick
  split_ifs <;> rfl

/-- The tick callback never touches the best score (recording happens in the
separate effect). -/
theorem tick_bestScore (s : Session) : (tick s).bestScore = s.bestScore := by
  unfold tick
  split_ifs <;> rfl

/-- Claim C1 (amended): while `PLAYING`, a guess at an index outside the grid
(negative or at least `gridSize^2`) is handled by the wrong-guess branch: the
clock loses 3 seconds (floored at 0) and score, phase and round are
unchanged.  The bounds on `targetIndex` are the round invariant established
by the round builder. -/
theorem out_of_range_guess_is_wrong_guess (s : Session) (i : Int) (r : Rand)
    (hp : s.gameState = GameState.PLAYING)
    (ht0 : 0 ≤ s.round.targetIndex)
    (htlt : s.round.targetIndex <
      ((s.round.gridSize * s.round.gridSize : Nat) : Int))
    (hout : i < 0 ∨ ((s.round.gridSize * s.round.gridSize : Nat) : Int) ≤ i) :
    (handleBlockClick s i r).timeLeft = max 0 (s.timeLeft - 3) ∧
    (handleBlockClick s i r).score = s.score ∧
    (handleBlockClick s i r).gameState = s.gameState ∧
    (handleBlockClick s i r).round = s.round := by
  have hne : i ≠ s.round.targetIndex := by
    rcases hout with h | h
    · omega
    · have h2 := lt_of_lt_of_le htlt h
      omega
  simp [handleBlockClick, hp, hne]

/-- Claim C1, counterexample to the original wording: in a concrete `PLAYING`
session the out-of-range guess `-1` is not ignored — the clock changes. -/
theorem out_of_range_guess_changes_clock :
    exS.gameState = GameState.PLAYING ∧
    ((-1 : Int) < 0 ∨
      ((exS.round.gridSize * exS.round.gridSize : Nat) : Int) ≤ -1) ∧
    (handleBlockClick exS (-1) r0).timeLeft ≠ exS.timeLeft := by decide

/-- Claim C2: while `PLAYING`, a guess at the target index increments the
score by 1, adds the 2-second bonus capped at 30, and replaces the round
with one built from the incremented score; at 29 seconds the clock caps at
30. -/
theorem correct_guess_scores_and_advances (s : Session) (r : Rand)
    (hp : s.gameState = GameState.PLAYING) :
    (handleBlockClick s s.round.targetIndex r).score = s.score + 1 ∧
    (handleBlockClick s s.round.targetIndex r).timeLeft =
      min (s.timeLeft + 2) 30 ∧
    (handleBlockClick s s.round.targetIndex r).round =
      nextLevel (s.score + 1) r ∧
    (s.timeLeft = 29 →
      (handleBlockClick s s.round.targetIndex r).timeLeft = 30) := by
  refine ⟨?_, ?_, ?_, ?_⟩ <;> simp [handleBlockClick, hp, TIME_BONUS]
  intro h29
  rw [h29]
  decide

/-- Claim C3: while `PLAYING`, a guess at an in-range index other than the
target loses 3 seconds (floored at 0) and leaves score, phase and round
unchanged.  The range hypotheses delimit the claim; the code reaches the
same branch for any non-target index. -/
theorem wrong_guess_penalty (s : Session) (i : Int) (r : Rand)
    (hp : s.gameState = GameState.PLAYING)
    (h0 : 0 ≤ i)
    (hin : i < ((s.round.gridSize * s.round.gridSize : Nat) : Int))
    (hne : i ≠ s.round.targetIndex) :
    (handleBlockClick s i r).timeLeft = max 0 (s.timeLeft - 3) ∧
    (handleBlockClick s i r).score = s.score ∧
    (handleBlockClick s i r).gameState = s.gameState ∧
    (handleBlockClick s i r).round = s.round := by
  simp [handleBlockClick, hp, hne]

/-- Claim C4: a countdown tick on a `PLAYING` session decrements the clock;
when the result would be at most 0 the clock clamps to 0 and the phase flips
to `GAMEOVER` (in particular from 1 second), and the clock never goes
negative. -/
theorem countdown_tick_spec (s : Session)
    (hp : s.gameState = GameState.PLAYING) :
    (s.timeLeft - 1 ≤ 0 →
      (tick s).timeLeft = 0 ∧ (tick s).gameState = GameState.GAMEOVER) ∧
    (0 < s.timeLeft - 1 →
      (tick s).timeLeft = s.timeLeft - 1 ∧
      (tick s).gameState = GameState.PLAYING) ∧
    (s.timeLeft = 1 →
      (tick s).timeLeft = 0 ∧ (tick s).gameState = GameState.GAMEOVER) ∧
    0 ≤ (tick s).timeLeft := by
  simp only [tick, hp]
  split_ifs with h <;> simp_all <;> omega

/-- Claim C10: a guess never changes the phase, so the session stays
`PLAYING` after any wrong guess — even one that drives the clock to 0 — and
a further (correct) guess is still processed before the next tick fires. -/
theorem guess_preserves_phase (s : Session) (i : Int) (r r2 : Rand) :
    (handleBlockClick s i r).gameState = s.gameState ∧
    (s.gameState = GameState.PLAYING → i ≠ s.round.targetIndex →
      ((handleBlockClick s i r).gameState = GameState.PLAYING ∧
       (s.timeLeft ≤ 3 → (handleBlockClick s i r).timeLeft = 0) ∧
       (handleBlockClick (handleBlockClick s i r)
           s.round.targetIndex r2).score = s.score + 1)) := by
  refine ⟨handleBlockClick_gameState s i r, ?_⟩
  intro hp hne
  have h1 : handleBlockClick s i r =
      { s with timeLeft := max 0 (s.timeLeft - 3) } := by
    simp [handleBlockClick, hp, hne]
  rw [h1]
  refine ⟨hp, ?_, ?_⟩
  · intro hle
    simp [max_eq_left (by omega : s.timeLeft - 3 ≤ 0)]
  · simp [handleBlockClick, hp]

/-- Invariant: once the phase is `GAMEOVER`, the best score has already
absorbed the final score (the effect ran on entry). -/
def InvBest (s : Session) : Prop :=
  s.gameState = GameState.GAMEOVER → s.score ≤ s.bestScore

/-- The best-score effect never lowers the best score. -/
theorem bestScoreEffect_mono (s : Session) :
    s.bestScore ≤ (bestScoreEffect s).bestScore := by
  unfold bestScoreEffect
  split_ifs with h
  · simp
    omega
  · exact le_refl _

/-- The best-score effect is inert outside `GAMEOVER`. -/
theorem bestScoreEffect_not_gameover (s : Session)
    (h : s.gameState ≠ GameState.GAMEOVER) : bestScoreEffect s = s := by
  unfold bestScoreEffect
  split_ifs with hc
  · exact absurd hc.1 h
  · rfl

/-- The best-score effect is inert on states satisfying the invariant. -/
theorem bestScoreEffect_of_inv (s : Session) (h : InvBest s) :
    bestScoreEffect s = s := by
  unfold bestScoreEffect
  split_ifs with hc
  · exact absurd (h hc.1) (by omega)
  · rfl

/-- One step never lowers the best score. -/
theorem step_bestScore_mono (s : Session) (e : Event) :
    s.bestScore ≤ (step s e).bestScore := by
  cases e with
  | start r =>
      have h := bestScoreEffect_mono (startGame s r)
      simpa [step, startGame] using h
  | guess i r =>
      have h := bestScoreEffect_mono (handleBlockClick s i r)
      simpa [step, handleBlockClick_bestScore] using h
  | tickEv =>
      have h := bestScoreEffect_mono (tick s)
      simpa [step, tick_bestScore] using h

/-- A whole run never lowers the best score. -/
theorem run_bestScore_mono (s : Session) (es : List Event) :
    s.bestScore ≤ (run s es).bestScore := by
  induction es generalizing s with
  | nil => exact le_refl _
  | cons e es ih => exact le_trans (step_bestScore_mono s e) (ih (step s e))

/-- One step preserves the best-score invariant. -/
theorem step_invBest (s : Session) (h : InvBest s) (e : Event) :
    InvBest (step s e) := by
  cases e with
  | start r =>
      have hng : (startGame s r).gameState ≠ GameState.GAMEOVER := by
        simp [startGame]
      have heq : step s (Event.start r) = startGame s r :=
        bestScoreEffect_not_gameover _ hng
      rw [heq]
      intro hg
      exact absurd hg hng
  | guess i r =>
      by_cases hg : s.gameState = GameState.GAMEOVER
      · have hcl : handleBlockClick s i r = s := by
          simp [handleBlockClick, hg]
        have heq : step s (Event.guess i r) = s := by
          show bestScoreEffect (handleBlockClick s i r) = s
          rw [hcl]
          exact bestScoreEffect_of_inv s h
        rw [heq]
        exact h
      · have hg2 : (handleBlockClick s i r).gameState ≠ GameState.GAMEOVER := by
          rw [handleBlockClick_gameState]
          exact hg
        have heq : step s (Event.guess i r) = handleBlockClick s i r :=
          bestScoreEffect_not_gameover _ hg2
        rw [heq]
        intro hgo
        exact absurd hgo hg2
  | tickEv =>
      by_cases hp : s.gameState = GameState.PLAYING
      · by_cases ht : s.timeLeft ≤ 1
        · have htick : tick s =
              { s with gameState := GameState.GAMEOVER, timeLeft := 0 } := by
            simp [tick, hp, ht]
          intro _
          show (step s Event.tickEv).score ≤ (step s Event.tickEv).bestScore
          show (bestScoreEffect (tick s)).score ≤
            (bestScoreEffect (tick s)).bestScore
          rw [htick]
          unfold bestScoreEffect
          split_ifs with hc <;> simp_all
        · have hng : (tick s).gameState ≠ GameState.GAMEOVER := by
            simp [tick, hp, ht]
          have heq : step s Event.tickEv = tick s :=
            bestScoreEffect_not_gameover _ hng
          rw [heq]
          intro hgo
          exact absurd hgo hng
      · have htick : tick s = s := by
          simp [tick, hp]
        have heq : step s Event.tickEv = s := by
          show bestScoreEffect (tick s) = s
          rw [htick]
          exact bestScoreEffect_of_inv s h
        rw [heq]
        exact h

/-- A run from an invariant state stays invariant. -/
theorem run_invBest_aux (s : Session) (h : InvBest s) (es : List Event) :
    InvBest (run s es) := by
  induction es generalizing s with
  | nil => exact h
  | cons e es ih => exact ih (step s e) (step_invBest s h e)

/-- Every state reachable from the initial state satisfies the invariant. -/
theorem run_invBest (es : List Event) : InvBest (run initSession es) :=
  run_invBest_aux initSession (fun _ => le_refl 0) es

/-- On an invariant state, the only step that can move the best score is a
tick that ends a `PLAYING` session, and then it records exactly the final
score, which strictly beat the previous best. -/
theorem step_bestScore_change (s : Session) (h : InvBest s) (e : Event)
    (hch : (step s e).bestScore ≠ s.bestScore) :
    e = Event.tickEv ∧ s.gameState = GameState.PLAYING ∧
    (step s e).gameState = GameState.GAMEOVER ∧
    (step s e).bestScore = s.score ∧ s.bestScore < s.score := by
  cases e with
  | start r =>
      have hng : (startGame s r).gameState ≠ GameState.GAMEOVER := by
        simp [startGame]
      have heq : step s (Event.start r) = startGame s r :=
        bestScoreEffect_not_gameover _ hng
      rw [heq] at hch
      exact absurd rfl hch
  | guess i r =>
      by_cases hg : s.gameState = GameState.GAMEOVER
      · have hcl : handleBlockClick s i r = s := by
          simp [handleBlockClick, hg]
        have heq : step s (Event.guess i r) = s := by
          show bestScoreEffect (handleBlockClick s i r) = s
          rw [hcl]
          exact bestScoreEffect_of_inv s h
        rw [heq] at hch
        exact absurd rfl hch
      · have hg2 : (handleBlockClick s i r).gameState ≠ GameState.GAMEOVER := by
          rw [handleBlockClick_gameState]
          exact hg
        have heq : step s (Event.guess i r) = handleBlockClick s i r :=
          bestScoreEffect_not_gameover _ hg2
        rw [heq] at hch
        rw [handleBlockClick_bestScore] at hch
        exact absurd rfl hch
  | tickEv =>
      by_cases hp : s.gameState = GameState.PLAYING
      · by_cases ht : s.timeLeft ≤ 1
        · have htick : tick s =
              { s with gameState := GameState.GAMEOVER, timeLeft := 0 } := by
            simp [tick, hp, ht]
          have hstep : step s Event.tickEv = bestScoreEffect (tick s) := rfl
          rw [hstep, htick] at hch ⊢
          unfold bestScoreEffect at hch ⊢
          split_ifs at hch ⊢ with hc
          · simp only [] at hc
            refine ⟨rfl, hp, by simp, by simp, ?_⟩
            have := hc.2
            simpa using this
          · exact absurd rfl hch
        · have hng : (tick s).gameState ≠ GameState.GAMEOVER := by
            simp [tick, hp, ht]
          have heq : step s Event.tickEv = tick s :=
            bestScoreEffect_not_gameover _ hng
          rw [heq, tick_bestScore] at hch
          exact absurd rfl hch
      · have htick : tick s = s := by
          simp [tick, hp]
        have heq : step s Event.tickEv = s := by
          show bestScoreEffect (tick s) = s
          rw [htick]
          exact bestScoreEffect_of_inv s h
        rw [heq] at hch
        exact absurd rfl hch

/-- Claim C9: the best score never decreases along any run; `startGame`
never resets it; and along any run from the initial state, a step moves the
best score only when it is a countdown tick taking a `PLAYING` session to
`GAMEOVER`, and then the new best is exactly the session's final score,
which strictly exceeded the previous best. -/
theorem bestScore_update_policy (s : Session) (es : List Event) (r : Rand)
    (tr : List Event) (e : Event) :
    s.bestScore ≤ (run s es).bestScore ∧
    (startGame s r).bestScore = s.bestScore ∧
    ((step (run initSession tr) e).bestScore ≠
        (run initSession tr).bestScore →
      e = Event.tickEv ∧
      (run initSession tr).gameState = GameState.PLAYING ∧
      (step (run initSession tr) e).gameState = GameState.GAMEOVER ∧
      (step (run initSession tr) e).bestScore = (run initSession tr).score ∧
      (run initSession tr).bestScore < (run initSession tr).score) := by
  refine ⟨run_bestScore_mono s es, rfl, ?_⟩
  intro hch
  exact step_bestScore_change _ (run_invBest tr) e hch

/-! ### Concrete sessions and traces used by the witnesses -/

/-- `exS` with 29 seconds on the clock. -/
def exS29 : Session := { exS with timeLeft := 29 }

/-- `exS` with 1 second on the clock. -/
def exS1 : Session := { exS with timeLeft := 1 }

/-- `exS` with 3 seconds on the clock. -/
def exS3 : Session := { exS with timeLeft := 3 }

/-- A concrete run: start, one correct guess, then 16 ticks, leaving a
`PLAYING` session with score 1, best score 0 and 1 second left. -/
def trW : List Event :=
  Event.start r0 :: Event.guess 0 r0 :: List.replicate 16 Event.tickEv

/-! ### Witnesses -/

theorem out_of_range_guess_is_wrong_guess_witness :
    (handleBlockClick exS 4 r0).timeLeft = max 0 (exS.timeLeft - 3) ∧
    (handleBlockClick exS 4 r0).score = exS.score ∧
    (handleBlockClick exS 4 r0).gameState = exS.gameState ∧
    (handleBlockClick exS 4 r0).round = exS.round :=
  out_of_range_guess_is_wrong_guess exS 4 r0 (by decide) (by decide)
    (by decide) (by decide)

theorem correct_guess_scores_and_advances_witness :
    (handleBlockClick exS29 exS29.round.targetIndex r0).score =
      exS29.score + 1 ∧
    (handleBlockClick exS29 exS29.round.targetIndex r0).timeLeft =
      min (exS29.timeLeft + 2) 30 ∧
    (handleBlockClick exS29 exS29.round.targetIndex r0).round =
      nextLevel (exS29.score + 1) r0 ∧
    (handleBlockClick exS29 exS29.round.targetIndex r0).timeLeft = 30 := by
  obtain ⟨h1, h2, h3, h4⟩ :=
    correct_guess_scores_and_advances exS29 r0 (by decide)
  exact ⟨h1, h2, h3, h4 (by decide)⟩

theorem wrong_guess_penalty_witness :
    (handleBlockClick exS 1 r0).timeLeft = max 0 (exS.timeLeft - 3) ∧
    (handleBlockClick exS 1 r0).score = exS.score ∧
    (handleBlockClick exS 1 r0).gameState = exS.gameState ∧
    (handleBlockClick exS 1 r0).round = exS.round :=
  wrong_guess_penalty exS 1 r0 (by decide) (by decide) (by decide)
    (by decide)

theorem countdown_tick_spec_witness :
    ((tick exS1).timeLeft = 0 ∧ (tick exS1).gameState = GameState.GAMEOVER) ∧
    0 ≤ (tick exS1).timeLeft := by
  obtain ⟨h1, h2, h3, h4⟩ := countdown_tick_spec exS1 (by decide)
  exact ⟨h3 (by decide), h4⟩

theorem round_builder_invariant_witness :
    (nextLevel 0 r0).tiles.get ⟨0, by decide⟩ = (generateColor 0 r0).2 ∧
    (nextLevel 0 r0).tiles.get ⟨1, by decide⟩ = (generateColor 0 r0).1 ∧
    (nextLevel 0 r0).tiles.length =
      (nextLevel 0 r0).gridSize * (nextLevel 0 r0).gridSize ∧
    (generateColor 0 r0).2 ≠ (generateColor 0 r0).1 := by
  obtain ⟨hlen, _, _, htgt, _, hne⟩ :=
    round_builder_invariant 0 r0 0 (by decide) (by decide)
  obtain ⟨_, _, _, _, hbase, _⟩ :=
    round_builder_invariant 0 r0 1 (by decide) (by decide)
  exact ⟨htgt (by decide), hbase (by decide), hlen, hne⟩

theorem grid_dimension_step_function_witness :
    (nextLevel 2 r0).gridSize = gridSizeSpec 2 ∧
    gridSizeFor 2 ≤ gridSizeFor 45 ∧
    2 ≤ gridSizeFor 2 ∧ gridSizeFor 2 ≤ 8 ∧
    gridSizeFor 2 = 3 ∧
    (nextLevel 2 r0).tiles.length = 9 :=
  grid_dimension_step_function 2 45 r0 (by decide)

theorem delta_knob_spec_witness :
    delta 0 = max 1 (15 - ((0 / 3 : Nat) : Int)) ∧
    delta 3 ≤ delta 0 ∧
    1 ≤ delta 0 ∧
    |(generateColor 0 r0).2.s - (generateColor 0 r0).1.s| +
      |(generateColor 0 r0).2.l - (generateColor 0 r0).1.l| = delta 0 :=
  delta_knob_spec 0 3 r0 (by decide)

theorem generated_color_pair_spec_witness :
    (0 ≤ (generateColor 7 r0).1.h ∧ (generateColor 7 r0).1.h < 360 ∧
     40 ≤ (generateColor 7 r0).1.s ∧ (generateColor 7 r0).1.s < 80 ∧
     30 ≤ (generateColor 7 r0).1.l ∧ (generateColor 7 r0).1.l < 70) ∧
    (generateColor 7 r0).2.s = (generateColor 7 r0).1.s +
      (if (generateColor 7 r0).1.s > 50 then -(delta 7) else delta 7) ∧
    0 ≤ (generateColor 7 r0).2.s ∧ (generateColor 7 r0).2.s ≤ 100 := by
  obtain ⟨a1, a2, a3, a4, a5, a6, a7, a8, a9, a10, a11, a12, a13, a14⟩ :=
    generated_color_pair_spec 7 r0 (by decide) (by decide) (by decide)
  exact ⟨⟨a1, a2, a3, a4, a5, a6⟩, a9 (by decide), a11, a12⟩

set_option maxRecDepth 4000 in
theorem bestScore_update_policy_witness :
    initSession.bestScore ≤ (run initSession trW).bestScore ∧
    (run initSession trW).gameState = GameState.PLAYING ∧
    (step (run initSession trW) Event.tickEv).gameState =
      GameState.GAMEOVER ∧
    (step (run initSession trW) Event.tickEv).bestScore =
      (run initSession trW).score ∧
    (run initSession trW).bestScore < (run initSession trW).score := by
  obtain ⟨h1, h2, h3⟩ :=
    bestScore_update_policy initSession trW r0 trW Event.tickEv
  obtain ⟨e1, e2, e3, e4, e5⟩ := h3 (by decide)
  exact ⟨h1, e2, e3, e4, e5⟩

theorem guess_preserves_phase_witness :
    (handleBlockClick exS3 1 r0).gameState = exS3.gameState ∧
    (handleBlockClick exS3 1 r0).gameState = GameState.PLAYING ∧
    (handleBlockClick exS3 1 r0).timeLeft = 0 ∧
    (handleBlockClick (handleBlockClick exS3 1 r0)
        exS3.round.targetIndex r0).score = exS3.score + 1 := by
  obtain ⟨h1, h2⟩ := guess_preserves_phase exS3 1 r0 r0
  obtain ⟨a, b, c⟩ := h2 (by decide) (by decide)
  exact ⟨h1, a, b (by decide), c⟩

end ColorSophia
